import Mathlib

/-!
# Verification of pyremo (cmor export pipeline and preprocessing interface)

Shallow embedding of the pure computational parts of
`pyremo/cmor/remo_cmor.py` and `pyremo/preproc/core.py`, with theorems
settling the specification claims about them.

Conventions:
* numpy / python float arrays are modelled as `List ℚ` (the claims under
  study are about exact arithmetic relations between inputs and outputs);
* python functions that can raise are modelled as `Option` / `Except`;
* `warnings.warn` calls are modelled as an explicit warning flag or list.
-/

namespace PyRemo

/-! ## `_get_bnds` (remo_cmor.py, lines 99-107)

```python
def _get_bnds(values):
    bnds = [None] * (len(values) + 1)
    bnds[0] = values[0] - (values[1] - values[0]) / 2
    bnds[len(values)] = values[-1] + (values[-1] - values[-2]) / 2
    i = 1
    while i < len(values):
        bnds[i] = values[i] - (values[i] - values[i - 1]) / 2
        i += 1
    return bnds
```

The imperative fill assigns index 0, index N, and indices 1..N-1; `bndsAt`
gives the value each cell holds after the fill.  Python raises `IndexError`
when `len(values) < 2` (the accesses `values[1]` / `values[-2]`), modelled
by returning `none`. -/

def bndsAt (v : List ℚ) (i : ℕ) : ℚ :=
  if i = 0 then
    v.getD 0 0 - (v.getD 1 0 - v.getD 0 0) / 2
  else if i = v.length then
    v.getD (v.length - 1) 0 + (v.getD (v.length - 1) 0 - v.getD (v.length - 2) 0) / 2
  else
    v.getD i 0 - (v.getD i 0 - v.getD (i - 1) 0) / 2

def get_bnds (v : List ℚ) : Option (List ℚ) :=
  if 2 ≤ v.length then some ((List.range (v.length + 1)).map (bndsAt v)) else none

theorem get_bnds_eq (v : List ℚ) (h : 2 ≤ v.length) :
    get_bnds v = some ((List.range (v.length + 1)).map (bndsAt v)) := by
  simp [get_bnds, h]

theorem get_bnds_length (v : List ℚ) (h : 2 ≤ v.length) (b : List ℚ)
    (hb : get_bnds v = some b) : b.length = v.length + 1 := by
  rw [get_bnds_eq v h] at hb
  cases hb
  simp

theorem get_bnds_getD (v : List ℚ) (h : 2 ≤ v.length) (b : List ℚ)
    (hb : get_bnds v = some b) (i : ℕ) (hi : i < v.length + 1) :
    b.getD i 0 = bndsAt v i := by
  rw [get_bnds_eq v h] at hb
  cases hb
  rw [List.getD_eq_getElem _ _ (by simpa using hi)]
  simp

/-- C1: for every midpoint sequence `v` of length `N ≥ 2`, `_get_bnds`
returns a sequence of length `N + 1` with
`bounds[0] = v[0] - (v[1] - v[0])/2`,
`bounds[N] = v[N-1] + (v[N-1] - v[N-2])/2`, and
`bounds[i] = v[i] - (v[i] - v[i-1])/2` for every interior `i` in `1..N-1`. -/
theorem c1_get_bnds_formulas (v : List ℚ) (h : 2 ≤ v.length) :
    ∃ b, get_bnds v = some b ∧ b.length = v.length + 1 ∧
      b.getD 0 0 = v.getD 0 0 - (v.getD 1 0 - v.getD 0 0) / 2 ∧
      b.getD v.length 0 =
        v.getD (v.length - 1) 0 +
          (v.getD (v.length - 1) 0 - v.getD (v.length - 2) 0) / 2 ∧
      ∀ i, 1 ≤ i → i ≤ v.length - 1 →
        b.getD i 0 = v.getD i 0 - (v.getD i 0 - v.getD (i - 1) 0) / 2 := by
  refine ⟨(List.range (v.length + 1)).map (bndsAt v), get_bnds_eq v h, ?_, ?_, ?_, ?_⟩
  · simp
  · rw [get_bnds_getD v h _ (get_bnds_eq v h) 0 (by omega)]
    simp [bndsAt]
  · rw [get_bnds_getD v h _ (get_bnds_eq v h) v.length (by omega)]
    have hne : v.length ≠ 0 := by omega
    simp [bndsAt, hne]
  · intro i h1 h2
    rw [get_bnds_getD v h _ (get_bnds_eq v h) i (by omega)]
    have h0 : i ≠ 0 := by omega
    have hN : i ≠ v.length := by omega
    simp [bndsAt, h0, hN]

/-- Witness for C1 at the concrete midpoints `[1, 2, 3, 4]`. -/
theorem c1_get_bnds_formulas_witness :
    ∃ b, get_bnds [(1 : ℚ), 2, 3, 4] = some b ∧
      b.length = [(1 : ℚ), 2, 3, 4].length + 1 ∧
      b.getD 0 0 = [(1 : ℚ), 2, 3, 4].getD 0 0 -
        ([(1 : ℚ), 2, 3, 4].getD 1 0 - [(1 : ℚ), 2, 3, 4].getD 0 0) / 2 ∧
      b.getD [(1 : ℚ), 2, 3, 4].length 0 =
        [(1 : ℚ), 2, 3, 4].getD ([(1 : ℚ), 2, 3, 4].length - 1) 0 +
          ([(1 : ℚ), 2, 3, 4].getD ([(1 : ℚ), 2, 3, 4].length - 1) 0 -
            [(1 : ℚ), 2, 3, 4].getD ([(1 : ℚ), 2, 3, 4].length - 2) 0) / 2 ∧
      ∀ i, 1 ≤ i → i ≤ [(1 : ℚ), 2, 3, 4].length - 1 →
        b.getD i 0 = [(1 : ℚ), 2, 3, 4].getD i 0 -
          ([(1 : ℚ), 2, 3, 4].getD i 0 - [(1 : ℚ), 2, 3, 4].getD (i - 1) 0) / 2 :=
  c1_get_bnds_formulas [(1 : ℚ), 2, 3, 4] (by decide)

/-! ## C4: monotonicity and midpoint round-trip of `_get_bnds`

`midRecover` is the inverse midpoint recovery: the midpoint of each
adjacent boundary pair. -/

def midRecover (b : List ℚ) : List ℚ :=
  (b.zip b.tail).map (fun p => (p.1 + p.2) / 2)

theorem bndsAt_zero (v : List ℚ) :
    bndsAt v 0 = v.getD 0 0 - (v.getD 1 0 - v.getD 0 0) / 2 := by
  simp [bndsAt]

theorem bndsAt_last (v : List ℚ) (h : v.length ≠ 0) :
    bndsAt v v.length =
      v.getD (v.length - 1) 0 +
        (v.getD (v.length - 1) 0 - v.getD (v.length - 2) 0) / 2 := by
  simp [bndsAt, h]

theorem bndsAt_mid (v : List ℚ) (i : ℕ) (h0 : i ≠ 0) (hN : i ≠ v.length) :
    bndsAt v i = v.getD i 0 - (v.getD i 0 - v.getD (i - 1) 0) / 2 := by
  simp [bndsAt, h0, hN]

theorem chain'_lt_getD (v : List ℚ) (h : List.Chain' (· < ·) v) :
    ∀ i, i + 1 < v.length → v.getD i 0 < v.getD (i + 1) 0 := by
  intro i hi
  have h' := List.chain'_iff_get.mp h i (by omega)
  rw [List.getD_eq_getElem _ _ (by omega : i < v.length), List.getD_eq_getElem _ _ hi]
  simpa [List.get_eq_getElem] using h'

theorem chain'_lt_of_getD (b : List ℚ)
    (h : ∀ i, i + 1 < b.length → b.getD i 0 < b.getD (i + 1) 0) :
    List.Chain' (· < ·) b := by
  rw [List.chain'_iff_get]
  intro i hi
  have hlt := h i (by omega)
  rw [List.getD_eq_getElem _ _ (by omega : i < b.length),
    List.getD_eq_getElem _ _ (by omega : i + 1 < b.length)] at hlt
  simpa [List.get_eq_getElem] using hlt

theorem midRecover_length (b : List ℚ) :
    (midRecover b).length = b.length - 1 := by
  rw [midRecover, List.length_map, List.length_zip, List.length_tail]
  omega

theorem bndsAt_one (v : List ℚ) (h : 1 ≠ v.length) :
    bndsAt v 1 = v.getD 1 0 - (v.getD 1 0 - v.getD 0 0) / 2 := by
  simpa using bndsAt_mid v 1 (by omega) h

theorem bndsAt_succ (v : List ℚ) (j : ℕ) (h : j + 1 ≠ v.length) :
    bndsAt v (j + 1) = v.getD (j + 1) 0 - (v.getD (j + 1) 0 - v.getD j 0) / 2 := by
  simpa using bndsAt_mid v (j + 1) (by omega) h

theorem bndsAt_succsucc (v : List ℚ) (j : ℕ) (h : j + 2 ≠ v.length) :
    bndsAt v (j + 2) = v.getD (j + 2) 0 - (v.getD (j + 2) 0 - v.getD (j + 1) 0) / 2 := by
  have e : j + 2 - 1 = j + 1 := by omega
  have h' := bndsAt_mid v (j + 2) (by omega) h
  rwa [e] at h'

theorem bndsAt_last_idx (v : List ℚ) (j : ℕ) (h : j + 2 = v.length) :
    bndsAt v (j + 2) = v.getD (j + 1) 0 + (v.getD (j + 1) 0 - v.getD j 0) / 2 := by
  have h' := bndsAt_last v (by omega)
  rw [← h] at h'
  have e1 : j + 2 - 1 = j + 1 := by omega
  have e2 : j + 2 - 2 = j := by omega
  rwa [e1, e2] at h'

theorem midRecover_getD (b : List ℚ) (i : ℕ) (hi : i + 1 < b.length) :
    (midRecover b).getD i 0 = (b.getD i 0 + b.getD (i + 1) 0) / 2 := by
  have hlen : i < (midRecover b).length := by rw [midRecover_length]; omega
  rw [List.getD_eq_getElem _ _ hlen,
    List.getD_eq_getElem _ _ (show i < b.length by omega),
    List.getD_eq_getElem _ _ hi]
  simp only [midRecover, List.getElem_map, List.getElem_zip, List.getElem_tail]

/-- C4 counterexample: for the strictly increasing midpoints `[0, 1, 3]`
(unequal spacing), the midpoint recovery applied to the `_get_bnds` output
does not return the original sequence (it returns `[0, 5/4, 3]`). -/
theorem c4_counterexample :
    List.Chain' (· < ·) [(0 : ℚ), 1, 3] ∧
      Option.map midRecover (get_bnds [(0 : ℚ), 1, 3]) ≠ some [(0 : ℚ), 1, 3] := by
  constructor
  · norm_num [List.chain'_cons]
  · norm_num [get_bnds, bndsAt, List.range_succ, midRecover]

/-- C4 (amended): for every strictly increasing midpoint sequence of
length ≥ 2, `_get_bnds` produces a strictly increasing boundary sequence;
and when the midpoints are equally spaced, the inverse midpoint recovery
on the boundaries returns exactly the original sequence. -/
theorem c4_bnds_monotone_roundtrip (v : List ℚ) (h2 : 2 ≤ v.length)
    (hmono : List.Chain' (· < ·) v) :
    ∃ b, get_bnds v = some b ∧ List.Chain' (· < ·) b ∧
      ((∀ i, i + 2 < v.length →
          v.getD (i + 1) 0 - v.getD i 0 = v.getD (i + 2) 0 - v.getD (i + 1) 0) →
        midRecover b = v) := by
  have hv := chain'_lt_getD v hmono
  have hbe := get_bnds_eq v h2
  have hblen : ((List.range (v.length + 1)).map (bndsAt v)).length = v.length + 1 := by
    simp
  have hget := get_bnds_getD v h2 _ hbe
  refine ⟨(List.range (v.length + 1)).map (bndsAt v), hbe, ?_, ?_⟩
  · -- strict monotonicity of the boundaries
    apply chain'_lt_of_getD
    intro i hi
    rw [hblen] at hi
    rw [hget i (by omega), hget (i + 1) (by omega)]
    rcases Nat.eq_zero_or_pos i with h0 | hpos
    · subst h0
      have hlt := hv 0 (by omega)
      rw [Nat.zero_add] at hlt ⊢
      rw [bndsAt_zero, bndsAt_one v (by omega)]
      linarith
    · obtain ⟨j, rfl⟩ : ∃ j, i = j + 1 := ⟨i - 1, by omega⟩
      rw [show j + 1 + 1 = j + 2 from by omega]
      rcases Nat.lt_or_ge (j + 2) v.length with hlt2 | hge2
      · -- both interior
        have ha := hv j (by omega)
        have hb' := hv (j + 1) (by omega)
        rw [show j + 1 + 1 = j + 2 from by omega] at hb'
        rw [bndsAt_succ v j (by omega), bndsAt_succsucc v j (by omega)]
        linarith
      · -- the step onto the last boundary
        have hj2n : j + 2 = v.length := by omega
        have ha := hv j (by omega)
        rw [bndsAt_succ v j (by omega), bndsAt_last_idx v j hj2n]
        linarith
  · -- midpoint recovery under equal spacing
    intro heq
    apply List.ext_getElem
    · rw [midRecover_length, hblen]; omega
    intro i hi1 hi2
    have hi' : i < v.length := by
      rw [midRecover_length, hblen] at hi1; omega
    rw [← List.getD_eq_getElem _ 0 hi1, ← List.getD_eq_getElem _ 0 hi2,
      midRecover_getD _ i (by rw [hblen]; omega), hget i (by omega),
      hget (i + 1) (by omega)]
    rcases Nat.eq_zero_or_pos i with h0 | hpos
    · subst h0
      rw [Nat.zero_add, bndsAt_zero, bndsAt_one v (by omega)]
      ring
    · obtain ⟨j, rfl⟩ : ∃ j, i = j + 1 := ⟨i - 1, by omega⟩
      rw [show j + 1 + 1 = j + 2 from by omega]
      rcases Nat.lt_or_ge (j + 2) v.length with hlt2 | hge2
      · have hsp := heq j (by omega)
        rw [bndsAt_succ v j (by omega), bndsAt_succsucc v j (by omega)]
        linarith
      · have hj2n : j + 2 = v.length := by omega
        rw [bndsAt_succ v j (by omega), bndsAt_last_idx v j hj2n]
        ring

/-- Witness for the amended C4 at the equally spaced midpoints
`[1, 2, 3, 4]`: the boundaries are `[1/2, 3/2, 5/2, 7/2, 9/2]`, strictly
increasing, and the round trip recovers `[1, 2, 3, 4]`. -/
theorem c4_bnds_monotone_roundtrip_witness :
    get_bnds [(1 : ℚ), 2, 3, 4] = some [1 / 2, 3 / 2, 5 / 2, 7 / 2, 9 / 2] ∧
      List.Chain' (· < ·) [(1 : ℚ) / 2, 3 / 2, 5 / 2, 7 / 2, 9 / 2] ∧
      midRecover [(1 : ℚ) / 2, 3 / 2, 5 / 2, 7 / 2, 9 / 2] = [(1 : ℚ), 2, 3, 4] := by
  obtain ⟨b, hb, hchain, hrt⟩ :=
    c4_bnds_monotone_roundtrip [(1 : ℚ), 2, 3, 4] (by norm_num)
      (by norm_num [List.chain'_cons])
  have hb5 : b = [(1 : ℚ) / 2, 3 / 2, 5 / 2, 7 / 2, 9 / 2] := by
    have he : get_bnds [(1 : ℚ), 2, 3, 4] =
        some [(1 : ℚ) / 2, 3 / 2, 5 / 2, 7 / 2, 9 / 2] := by
      norm_num [get_bnds, bndsAt, List.range_succ]
    rw [he] at hb
    exact (Option.some_injective _ hb).symm
  refine ⟨hb5 ▸ hb, hb5 ▸ hchain, hb5 ▸ hrt ?_⟩
  intro i hi
  have hle : i ≤ 1 := by simp only [List.length_cons, List.length_nil] at hi; omega
  interval_cases i <;> norm_num

/-! ## `_units_convert` (remo_cmor.py, lines 190-206) and the rules table
(lines 26-29)

```python
units_convert_rules = {
    "mm": (lambda x: x * 1.0 / 86400.0, "kg m-2 s-1"),
    "kg/kg": (lambda x: x, "1"),
}

def _units_convert(da, table_file):
    ...
    units = da.units
    cf_units = table["variable_entry"][da.name]["units"]
    if units != cf_units:
        warn("converting units ...")
        rule = units_convert_rules[units]
        da = rule[0](da)
        da.attrs["units"] = rule[1]
    return da
```

A variable is a name, a units string and its values.  `cf_units` (the
table lookup result) is a parameter.  The result carries a flag recording
whether a warning was emitted; a `KeyError` on a units string with no
registered rule is `Except.error` carrying that units string. -/

structure DataArray where
  name : String
  units : String
  values : List ℚ
deriving DecidableEq

def units_convert_rules (u : String) : Option ((ℚ → ℚ) × String) :=
  if u = "mm" then some (fun x => x * 1 / 86400, "kg m-2 s-1")
  else if u = "kg/kg" then some (fun x => x, "1")
  else none

def units_convert (da : DataArray) (cf_units : String) :
    Except String (DataArray × Bool) :=
  if da.units ≠ cf_units then
    match units_convert_rules da.units with
    | some rule =>
        Except.ok
          ({ da with values := da.values.map rule.1, units := rule.2 }, true)
    | none => Except.error da.units
  else
    Except.ok (da, false)

/-- C2: if the variable's units equal the table units, the variable is
returned unchanged with no warning; on a mismatch with source units "mm"
every value is divided by 86400 and the units become "kg m-2 s-1"; on a
mismatch with source units "kg/kg" the values are unchanged and the units
become "1"; a warning is emitted in both conversion cases. -/
theorem c2_units_convert (da : DataArray) (cf : String) :
    (da.units = cf → units_convert da cf = Except.ok (da, false)) ∧
    (da.units ≠ cf → da.units = "mm" →
      units_convert da cf =
        Except.ok
          ({ da with values := da.values.map (fun x => x / 86400),
                     units := "kg m-2 s-1" }, true)) ∧
    (da.units ≠ cf → da.units = "kg/kg" →
      units_convert da cf = Except.ok ({ da with units := "1" }, true)) := by
  refine ⟨fun h => ?_, fun hne hmm => ?_, fun hne hkg => ?_⟩
  · simp [units_convert, h]
  · have hmap : da.values.map (fun x => x * 1 / 86400) =
        da.values.map (fun x => x / 86400) := by
      apply List.map_congr_left
      intro x _
      ring
    rw [hmm] at hne
    simp [units_convert, hne, units_convert_rules, hmm, hmap]
  · rw [hkg] at hne
    simp [units_convert, hne, units_convert_rules, hkg]

/-- Witness for C2: a "mm" variable against table units "kg m-2 s-1", a
"kg/kg" variable against table units "1", and a variable already in the
table units. -/
theorem c2_units_convert_witness :
    units_convert ⟨"pr", "mm", [86400, 43200]⟩ "kg m-2 s-1" =
        Except.ok (⟨"pr", "kg m-2 s-1", [1, 1 / 2]⟩, true) ∧
      units_convert ⟨"huss", "kg/kg", [3, 7]⟩ "1" =
        Except.ok (⟨"huss", "1", [3, 7]⟩, true) ∧
      units_convert ⟨"tas", "K", [300]⟩ "K" =
        Except.ok (⟨"tas", "K", [300]⟩, false) := by
  refine ⟨?_, ?_, ?_⟩
  · rw [(c2_units_convert ⟨"pr", "mm", [86400, 43200]⟩ "kg m-2 s-1").2.1
      (by decide) rfl]
    norm_num
  · exact (c2_units_convert ⟨"huss", "kg/kg", [3, 7]⟩ "1").2.2 (by decide) rfl
  · exact (c2_units_convert ⟨"tas", "K", [300]⟩ "K").1 rfl

/-- C7: a mismatched units string with no registered rule (neither "mm"
nor "kg/kg") makes `_units_convert` fail (the `KeyError` on the rules
dict), and no converted variable is produced. -/
theorem c7_units_convert_unregistered (da : DataArray) (cf : String)
    (hne : da.units ≠ cf) (h1 : da.units ≠ "mm") (h2 : da.units ≠ "kg/kg") :
    units_convert da cf = Except.error da.units ∧
      ∀ res, units_convert da cf ≠ Except.ok res := by
  have herr : units_convert da cf = Except.error da.units := by
    simp [units_convert, hne, units_convert_rules, h1, h2]
  exact ⟨herr, fun res hok => by rw [herr] at hok; cases hok⟩

/-- Witness for C7: a variable in "degC" against table units "K" fails. -/
theorem c7_units_convert_unregistered_witness :
    units_convert ⟨"tos", "degC", [10]⟩ "K" = Except.error "degC" ∧
      ∀ res, units_convert ⟨"tos", "degC", [10]⟩ "K" ≠ Except.ok res :=
  c7_units_convert_unregistered ⟨"tos", "degC", [10]⟩ "K"
    (by decide) (by decide) (by decide)

/-! ## `_resample` (remo_cmor.py, lines 83-96) and `loffsets` (line 22)

```python
loffsets = {"3H": dt.timedelta(hours=1, minutes=30), "6H": dt.timedelta(hours=3)}

def _get_loffset(time):
    return loffsets.get(time, None)

def _resample(ds, time, time_cell_method="point", label="left", time_offset=True, **kwargs):
    if time_cell_method == "point":
        return ds.resample(time=time, label=label, **kwargs).interpolate("nearest")
    elif time_cell_method == "mean":
        if time_offset is True:
            loffset = _get_loffset(time)
        else:
            loffset = None
        return ds.resample(time=time, label=label, loffset=loffset, **kwargs).mean()
    else:
        raise Exception("unknown time_cell_method: {}".format(time_cell_method))
```

The xarray resampling itself is external; the embedding records which
operation `_resample` dispatches to (offsets in minutes). -/

inductive ResampleOp where
  | nearestInterp (freq label : String)
  | meanOp (freq label : String) (loffsetMinutes : Option Int)
deriving DecidableEq

def loffsets (t : String) : Option Int :=
  if t = "3H" then some 90 else if t = "6H" then some 180 else none

def get_loffset (time : String) : Option Int := loffsets time

def resample (time time_cell_method label : String) (time_offset : Bool) :
    Except String ResampleOp :=
  if time_cell_method = "point" then
    Except.ok (ResampleOp.nearestInterp time label)
  else if time_cell_method = "mean" then
    Except.ok
      (ResampleOp.meanOp time label
        (if time_offset then get_loffset time else none))
  else
    Except.error ("unknown time_cell_method: " ++ time_cell_method)

/-- C6: any `time_cell_method` other than "point" and "mean" makes
`_resample` raise an error whose message names the unsupported value; no
branch falls through to a default. -/
theorem c6_resample_unknown_method (time method label : String) (off : Bool)
    (h1 : method ≠ "point") (h2 : method ≠ "mean") :
    resample time method label off =
      Except.error ("unknown time_cell_method: " ++ method) := by
  simp [resample, h1, h2]

/-- Witness for C6 at the unsupported method "max". -/
theorem c6_resample_unknown_method_witness :
    resample "6H" "max" "left" true =
      Except.error ("unknown time_cell_method: " ++ "max") :=
  c6_resample_unknown_method "6H" "max" "left" true (by decide) (by decide)

/-! ## `get_vc` (preproc/core.py, lines 363-391)

```python
def get_vc(ds):
    ak_valid = ["ap_bnds", "a_bnds"]
    bk_valid = ["b_bnds"]
    ak_bnds = None
    bk_bnds = None
    for ak_name in ak_valid:
        if ak_name in ds:
            ak_bnds = ds[ak_name]
    for bk_name in bk_valid:
        if bk_name in ds:
            bk_bnds = ds[bk_name]
    nlev = ak_bnds.shape[0]
    ak = np.zeros([nlev + 1], ...)
    bk = np.ones([nlev + 1], ...)
    if ds.lev.positive == "down":
        ak[:-1] = np.flip(ak_bnds[:, 1])
        bk[:-1] = np.flip(bk_bnds[:, 1])
    else:
        ak[1:] = np.flip(ak_bnds[:, 1])
        bk[1:] = np.flip(bk_bnds[:, 1])
    return ...
```

A bounds variable is a list of `(lower, upper)` pairs, one per level.
The loop over `ak_valid` leaves the LAST present name's data in `ak_bnds`
(so `a_bnds` wins over `ap_bnds`).  The slice assignment into the
zero/one-initialised arrays is translated as list construction:
`ak[:-1] = flip(col)` gives `flip(col) ++ [0]` and `ak[1:] = flip(col)`
gives `0 :: flip(col)` (likewise `bk` with `1`).  The `AttributeError` /
`TypeError` raised when no recognised bound name is present, and the
numpy shape error when the `b_bnds` row count differs from the ak row
count, are modelled as `none`. -/

structure VCDataset where
  ap_bnds : Option (List (ℚ × ℚ))
  a_bnds : Option (List (ℚ × ℚ))
  b_bnds : Option (List (ℚ × ℚ))
  positive : String
deriving DecidableEq

def selectAkBnds (ds : VCDataset) : Option (List (ℚ × ℚ)) :=
  match ds.a_bnds with
  | some v => some v
  | none => ds.ap_bnds

def selectBkBnds (ds : VCDataset) : Option (List (ℚ × ℚ)) := ds.b_bnds

/-- `np.flip` of the second column (`bnds[:, 1]`) of a bounds variable. -/
def sndColFlip (l : List (ℚ × ℚ)) : List ℚ := (l.map Prod.snd).reverse

def get_vc (ds : VCDataset) : Option (List ℚ × List ℚ) :=
  match selectAkBnds ds, selectBkBnds ds with
  | some akB, some bkB =>
      if bkB.length = akB.length then
        if ds.positive = "down" then
          some (sndColFlip akB ++ [0], sndColFlip bkB ++ [1])
        else
          some (0 :: sndColFlip akB, 1 :: sndColFlip bkB)
      else none
  | _, _ => none

theorem sndColFlip_length (l : List (ℚ × ℚ)) :
    (sndColFlip l).length = l.length := by
  simp [sndColFlip]

theorem get_vc_down (ds : VCDataset) (akB bkB : List (ℚ × ℚ))
    (hak : selectAkBnds ds = some akB) (hbk : selectBkBnds ds = some bkB)
    (hlen : bkB.length = akB.length) (hpos : ds.positive = "down") :
    get_vc ds = some (sndColFlip akB ++ [0], sndColFlip bkB ++ [1]) := by
  rw [get_vc, hak, hbk]
  simp [hlen, hpos]

theorem get_vc_up (ds : VCDataset) (akB bkB : List (ℚ × ℚ))
    (hak : selectAkBnds ds = some akB) (hbk : selectBkBnds ds = some bkB)
    (hlen : bkB.length = akB.length) (hpos : ds.positive ≠ "down") :
    get_vc ds = some (0 :: sndColFlip akB, 1 :: sndColFlip bkB) := by
  rw [get_vc, hak, hbk]
  simp [hlen, hpos]

/-- C3: when a recognised ak-bound variable and `b_bnds` with `N` levels
are present, the returned `ak`/`bk` both have length `N + 1`, for either
value of the `positive` attribute; with `positive = "down"` the flipped
bound values occupy indices `0..N-1`, otherwise indices `1..N`; and when
no recognised ak-bound variable name is present, `get_vc` fails. -/
theorem c3_get_vc (ds : VCDataset) :
    (∀ akB bkB, selectAkBnds ds = some akB → selectBkBnds ds = some bkB →
      bkB.length = akB.length →
      ∃ ak bk, get_vc ds = some (ak, bk) ∧
        ak.length = akB.length + 1 ∧ bk.length = akB.length + 1 ∧
        (ds.positive = "down" →
          ∀ i, i < akB.length →
            ak.getD i 0 = (sndColFlip akB).getD i 0 ∧
            bk.getD i 0 = (sndColFlip bkB).getD i 0) ∧
        (ds.positive ≠ "down" →
          ∀ i, i < akB.length →
            ak.getD (i + 1) 0 = (sndColFlip akB).getD i 0 ∧
            bk.getD (i + 1) 0 = (sndColFlip bkB).getD i 0)) ∧
    (selectAkBnds ds = none → get_vc ds = none) := by
  constructor
  · intro akB bkB hak hbk hlen
    by_cases hpos : ds.positive = "down"
    · refine ⟨sndColFlip akB ++ [0], sndColFlip bkB ++ [1],
        get_vc_down ds akB bkB hak hbk hlen hpos, ?_, ?_, ?_, ?_⟩
      · simp [sndColFlip_length]
      · simp [sndColFlip_length, hlen]
      · intro _ i hi
        constructor
        · exact List.getD_append _ _ _ _ (by rw [sndColFlip_length]; omega)
        · exact List.getD_append _ _ _ _ (by rw [sndColFlip_length]; omega)
      · intro hne
        exact absurd hpos hne
    · refine ⟨0 :: sndColFlip akB, 1 :: sndColFlip bkB,
        get_vc_up ds akB bkB hak hbk hlen hpos, ?_, ?_, ?_, ?_⟩
      · simp [sndColFlip_length]
      · simp [sndColFlip_length, hlen]
      · intro hdown
        exact absurd hdown hpos
      · intro _ i hi
        exact ⟨List.getD_cons_succ, List.getD_cons_succ⟩
  · intro hnone
    rw [get_vc, hnone]

/-- Witness for C3 on a concrete two-level dataset, in both orientations
and with the missing-ak failure. -/
theorem c3_get_vc_witness :
    (∃ ak bk,
      get_vc ⟨some [(1, 2), (3, 4)], none, some [(5, 6), (7, 8)], "down"⟩ =
          some (ak, bk) ∧
        ak.length = 3 ∧ bk.length = 3 ∧
        ak.getD 0 0 = 4 ∧ ak.getD 1 0 = 2 ∧ bk.getD 0 0 = 8 ∧ bk.getD 1 0 = 6) ∧
      (∃ ak bk,
        get_vc ⟨some [(1, 2), (3, 4)], none, some [(5, 6), (7, 8)], "up"⟩ =
            some (ak, bk) ∧
          ak.length = 3 ∧ bk.length = 3 ∧
          ak.getD 1 0 = 4 ∧ ak.getD 2 0 = 2 ∧ bk.getD 1 0 = 8 ∧ bk.getD 2 0 = 6) ∧
      get_vc ⟨none, none, some [(5, 6), (7, 8)], "down"⟩ = none := by
  refine ⟨?_, ?_, ?_⟩
  · obtain ⟨ak, bk, hvc, hla, hlb, hdown, _⟩ :=
      (c3_get_vc ⟨some [(1, 2), (3, 4)], none, some [(5, 6), (7, 8)], "down"⟩).1
        [(1, 2), (3, 4)] [(5, 6), (7, 8)] rfl rfl rfl
    have h0 := hdown rfl 0 (by norm_num)
    have h1 := hdown rfl 1 (by norm_num)
    refine ⟨ak, bk, hvc, by simpa using hla, by simpa using hlb, ?_, ?_, ?_, ?_⟩
    · rw [h0.1]; norm_num [sndColFlip]
    · rw [h1.1]; norm_num [sndColFlip]
    · rw [h0.2]; norm_num [sndColFlip]
    · rw [h1.2]; norm_num [sndColFlip]
  · obtain ⟨ak, bk, hvc, hla, hlb, _, hup⟩ :=
      (c3_get_vc ⟨some [(1, 2), (3, 4)], none, some [(5, 6), (7, 8)], "up"⟩).1
        [(1, 2), (3, 4)] [(5, 6), (7, 8)] rfl rfl rfl
    have h0 := hup (by decide) 0 (by norm_num)
    have h1 := hup (by decide) 1 (by norm_num)
    refine ⟨ak, bk, hvc, by simpa using hla, by simpa using hlb, ?_, ?_, ?_, ?_⟩
    · rw [h0.1]; norm_num [sndColFlip]
    · rw [h1.1]; norm_num [sndColFlip]
    · rw [h0.2]; norm_num [sndColFlip]
    · rw [h1.2]; norm_num [sndColFlip]
  · exact (c3_get_vc ⟨none, none, some [(5, 6), (7, 8)], "down"⟩).2 rfl

/-- C10 (implicit): the returned pair always carries the fixed surface
endpoint `(ak, bk) = (0, 1)` coming from the zero/one initialisation: at
index `N` when `positive = "down"`, at index `0` otherwise; the other `N`
entries are the flipped second column (`bnds[:, 1]`) of the bounds. -/
theorem c10_get_vc_surface_endpoint (ds : VCDataset) (akB bkB : List (ℚ × ℚ))
    (hak : selectAkBnds ds = some akB) (hbk : selectBkBnds ds = some bkB)
    (hlen : bkB.length = akB.length) :
    ∃ ak bk, get_vc ds = some (ak, bk) ∧
      (ds.positive = "down" →
        ak.getD akB.length 0 = 0 ∧ bk.getD akB.length 0 = 1 ∧
        ∀ i, i < akB.length →
          ak.getD i 0 = ((akB.map Prod.snd).reverse).getD i 0 ∧
          bk.getD i 0 = ((bkB.map Prod.snd).reverse).getD i 0) ∧
      (ds.positive ≠ "down" →
        ak.getD 0 0 = 0 ∧ bk.getD 0 0 = 1 ∧
        ∀ i, i < akB.length →
          ak.getD (i + 1) 0 = ((akB.map Prod.snd).reverse).getD i 0 ∧
          bk.getD (i + 1) 0 = ((bkB.map Prod.snd).reverse).getD i 0) := by
  by_cases hpos : ds.positive = "down"
  · refine ⟨sndColFlip akB ++ [0], sndColFlip bkB ++ [1],
      get_vc_down ds akB bkB hak hbk hlen hpos, ?_, fun hne => absurd hpos hne⟩
    intro _
    refine ⟨?_, ?_, ?_⟩
    · rw [List.getD_append_right _ _ _ _ (by rw [sndColFlip_length])]
      simp [sndColFlip_length]
    · rw [List.getD_append_right _ _ _ _ (by rw [sndColFlip_length]; omega)]
      simp [sndColFlip_length, hlen]
    · intro i hi
      exact ⟨List.getD_append _ _ _ _ (by rw [sndColFlip_length]; omega),
        List.getD_append _ _ _ _ (by rw [sndColFlip_length]; omega)⟩
  · refine ⟨0 :: sndColFlip akB, 1 :: sndColFlip bkB,
      get_vc_up ds akB bkB hak hbk hlen hpos, fun hdown => absurd hdown hpos, ?_⟩
    intro _
    exact ⟨rfl, rfl, fun i hi => ⟨List.getD_cons_succ, List.getD_cons_succ⟩⟩

/-- Witness for C10 on the same concrete two-level dataset. -/
theorem c10_get_vc_surface_endpoint_witness :
    ∃ ak bk,
      get_vc ⟨some [(1, 2), (3, 4)], none, some [(5, 6), (7, 8)], "down"⟩ =
          some (ak, bk) ∧
        ak.getD 2 0 = 0 ∧ bk.getD 2 0 = 1 := by
  obtain ⟨ak, bk, hvc, hdown, _⟩ :=
    c10_get_vc_surface_endpoint
      ⟨some [(1, 2), (3, 4)], none, some [(5, 6), (7, 8)], "down"⟩
      [(1, 2), (3, 4)] [(5, 6), (7, 8)] rfl rfl rfl
  obtain ⟨h0, h1, _⟩ := hdown rfl
  exact ⟨ak, bk, hvc, by simpa using h0, by simpa using h1⟩

/-! ## `const` and `convert_units` (preproc/core.py, lines 26-30 and 412-441)

```python
class const:
    grav_const = 9.806805923
    absolute_zero = 273.5

def convert_units(ds):
    try:
        if ds.sftlf.units == "%":
            ...
            ds["sftlf"] = ds.sftlf * 0.01
            attrs["units"] = 1
            ...
    except:
        warnings.warn("sftlf has no units attribute, must be fractional.")
    try:
        if ds.tos.units == "degC":
            ds["tos"] = ds.tos + const.absolute_zero
            attrs["units"] = "K"
    except:
        warnings.warn("tos has no units attribute, must be Kelvin!")
    try:
        if ds.orog.units == "m":
            ds["orog"] = ds.orog * const.grav_const
            attrs["units"] = "m2 s-2"
    except:
        warnings.warn("orog has no units attribute, must be m2 s-2")
    return ds
```

A units attribute can be a string or a number (the sftlf branch stores
the Python int `1`), hence `UnitsAttr`.  A field with `units = none`
(or an absent field) raises `AttributeError` inside the `try`, which the
bare `except` turns into a warning and a no-op on that field. -/

namespace const

def grav_const : ℚ := 9806805923 / 1000000000

def absolute_zero : ℚ := 2735 / 10

end const

inductive UnitsAttr where
  | str (s : String)
  | num (n : Int)
deriving DecidableEq

structure PField where
  values : List ℚ
  units : Option UnitsAttr
deriving DecidableEq

structure PreprocDataset where
  sftlf : Option PField
  tos : Option PField
  orog : Option PField
deriving DecidableEq

/-- One `try` block of `convert_units`: if the field and its units
attribute exist and the units equal `fromU`, transform the values and set
the units to `toU`; if the units attribute (or the field) is missing,
leave the field alone and flag a warning; otherwise leave it alone
silently. -/
def convertField (f : Option PField) (fromU : UnitsAttr) (g : ℚ → ℚ)
    (toU : UnitsAttr) : Option PField × Bool :=
  match f with
  | some fl =>
      match fl.units with
      | some u =>
          if u = fromU then
            (some { values := fl.values.map g, units := some toU }, false)
          else (some fl, false)
      | none => (some fl, true)
  | none => (none, true)

def convert_units (ds : PreprocDataset) : PreprocDataset × List String :=
  let s := convertField ds.sftlf (UnitsAttr.str "%")
    (fun x => x * (1 / 100)) (UnitsAttr.num 1)
  let t := convertField ds.tos (UnitsAttr.str "degC")
    (fun x => x + const.absolute_zero) (UnitsAttr.str "K")
  let o := convertField ds.orog (UnitsAttr.str "m")
    (fun x => x * const.grav_const) (UnitsAttr.str "m2 s-2")
  (⟨s.1, t.1, o.1⟩,
    (if s.2 then ["sftlf has no units attribute, must be fractional."] else []) ++
    (if t.2 then ["tos has no units attribute, must be Kelvin!"] else []) ++
    (if o.2 then ["orog has no units attribute, must be m2 s-2"] else []))

/-- C8: a `sftlf` field with units `"%"` has every value multiplied by
`0.01` (so values in `[0, 100]` land in `[0, 1]`) and its units set to the
dimensionless marker (the number `1`); any of the three handled fields
with no units attribute at all is left unchanged, with a warning recorded
instead of an error — `convert_units` is total and never fails. -/
theorem c8_convert_units (vals : List ℚ) (t o : Option PField) :
    ((convert_units ⟨some ⟨vals, some (UnitsAttr.str "%")⟩, t, o⟩).1.sftlf =
        some ⟨vals.map (fun x => x * (1 / 100)), some (UnitsAttr.num 1)⟩) ∧
    (∀ x ∈ vals.map (fun x => x * (1 / 100)),
      ((0 : ℚ) ≤ x * 100 ∧ x * 100 ≤ 100) → 0 ≤ x ∧ x ≤ 1) ∧
    ((convert_units ⟨some ⟨vals, none⟩, t, o⟩).1.sftlf = some ⟨vals, none⟩ ∧
      "sftlf has no units attribute, must be fractional." ∈
        (convert_units ⟨some ⟨vals, none⟩, t, o⟩).2) ∧
    (∀ s' o', (convert_units ⟨s', some ⟨vals, none⟩, o'⟩).1.tos = some ⟨vals, none⟩ ∧
      "tos has no units attribute, must be Kelvin!" ∈
        (convert_units ⟨s', some ⟨vals, none⟩, o'⟩).2) ∧
    (∀ s' t', (convert_units ⟨s', t', some ⟨vals, none⟩⟩).1.orog = some ⟨vals, none⟩ ∧
      "orog has no units attribute, must be m2 s-2" ∈
        (convert_units ⟨s', t', some ⟨vals, none⟩⟩).2) := by
  refine ⟨?_, ?_, ⟨?_, ?_⟩, fun s' o' => ⟨?_, ?_⟩, fun s' t' => ⟨?_, ?_⟩⟩
  · simp [convert_units, convertField]
  · rintro y hy ⟨h0, h100⟩
    simp only [List.mem_map] at hy
    constructor <;> linarith
  · simp [convert_units, convertField]
  · simp [convert_units, convertField]
  · simp [convert_units, convertField]
  · simp [convert_units, convertField]
  · simp [convert_units, convertField]
  · simp [convert_units, convertField]

/-- Witness for C8: land fraction `[0, 50, 100]` in percent becomes
`[0, 1/2, 1]` with the numeric dimensionless marker; a field without a
units attribute is untouched and warned about. -/
theorem c8_convert_units_witness :
    (convert_units
        ⟨some ⟨[0, 50, 100], some (UnitsAttr.str "%")⟩, none, none⟩).1.sftlf =
          some ⟨[0, 1 / 2, 1], some (UnitsAttr.num 1)⟩ ∧
      ((0 : ℚ) ≤ 1 / 2 ∧ (1 / 2 : ℚ) ≤ 1) ∧
      ((convert_units ⟨some ⟨[3], none⟩, none, none⟩).1.sftlf = some ⟨[3], none⟩ ∧
        "sftlf has no units attribute, must be fractional." ∈
          (convert_units ⟨some ⟨[3], none⟩, none, none⟩).2) := by
  have h := c8_convert_units [0, 50, 100] none none
  have h3 := c8_convert_units [3] none none
  refine ⟨?_, ?_, h3.2.2.1⟩
  · rw [h.1]
    norm_num
  · exact h.2.1 (1 / 2) (by norm_num) ⟨by norm_num, by norm_num⟩

/-! ## `_crop_to_cordex_domain` (remo_cmor.py, lines 110-116)

```python
def _crop_to_cordex_domain(ds, domain):
    domain = cx.cordex_domain(domain)
    return ds.sel(
        rlon=slice(domain.rlon.min(), domain.rlon.max()),
        rlat=slice(domain.rlat.min(), domain.rlat.max()),
    )
```

Label-based slice selection on a one-dimensional coordinate: for a
monotonically increasing coordinate, pandas' `slice_indexer(lo, hi)`
keeps the contiguous run of labels from the first label `≥ lo` through
the last label `≤ hi` (both bounds inclusive).  `sel_slice` models one
coordinate dimension (`rlon` and `rlat` are treated identically); `lo`
and `hi` are the named domain's declared min/max rotated coordinates. -/

def sel_slice (coords : List ℚ) (lo hi : ℚ) : List ℚ :=
  (coords.dropWhile (fun x => decide (x < lo))).takeWhile (fun x => decide (x ≤ hi))

theorem sorted_dropWhile_lt (l : List ℚ) (lo : ℚ) (hs : List.Sorted (· ≤ ·) l) :
    ∀ x ∈ l.dropWhile (fun y => decide (y < lo)), lo ≤ x := by
  induction l with
  | nil => simp
  | cons a t ih =>
      intro x hx
      rw [List.dropWhile_cons] at hx
      by_cases ha : a < lo
      · rw [if_pos (by simpa using ha)] at hx
        exact ih (List.Sorted.of_cons hs) x hx
      · rw [if_neg (by simpa using ha)] at hx
        rcases List.mem_cons.mp hx with rfl | hxt
        · exact le_of_not_lt ha
        · exact le_trans (le_of_not_lt ha) (List.rel_of_sorted_cons hs x hxt)

/-- C5: on a sorted (monotonically increasing) coordinate, cropping to
the domain range `[lo, hi]` yields coordinates that are a subset of the
input coordinates and all lie between the domain's min and max. -/
theorem c5_crop_bounds (coords : List ℚ) (lo hi : ℚ)
    (hs : List.Sorted (· ≤ ·) coords) :
    (∀ x ∈ sel_slice coords lo hi, x ∈ coords) ∧
      ∀ x ∈ sel_slice coords lo hi, lo ≤ x ∧ x ≤ hi := by
  constructor
  · intro x hx
    have h1 : x ∈ coords.dropWhile (fun y => decide (y < lo)) :=
      (List.takeWhile_sublist _).subset hx
    exact (List.dropWhile_sublist _).subset h1
  · intro x hx
    refine ⟨?_, ?_⟩
    · exact sorted_dropWhile_lt coords lo hs x ((List.takeWhile_sublist _).subset hx)
    · simpa using List.mem_takeWhile_imp hx

/-- Witness for C5: cropping the sorted coordinates `[-3, -1, 0, 2, 5]`
to the domain range `[-1, 2]`. -/
theorem c5_crop_bounds_witness :
    (∀ x ∈ sel_slice [-3, -1, 0, 2, 5] (-1) 2, x ∈ [(-3 : ℚ), -1, 0, 2, 5]) ∧
      ∀ x ∈ sel_slice [-3, -1, 0, 2, 5] (-1) 2, (-1 : ℚ) ≤ x ∧ x ≤ 2 :=
  c5_crop_bounds [-3, -1, 0, 2, 5] (-1) 2
    (by norm_num [List.sorted_cons])

/-! ## C9: the literal conversion constants

Degree-to-radian conversions passed to the interpolation kernel all use
the literal divisor `57.296` (`intersect`, `interp_horiz`,
`interp_horiz_cm`, `rotate_uv` in preproc/core.py: `x * 1.0 / 57.296`),
while `geo_coords` converts the kernel's radian output to degrees with
`np.rad2deg`, i.e. the exact factor `180 / π`.  The `tos` conversion adds
`const.absolute_zero = 273.5` and the `orog` conversion multiplies by
`const.grav_const = 9.806805923` (see `convert_units` above). -/

def deg2rad_divisor : ℚ := 57296 / 1000

/-- The conversion applied to each angle argument before the kernel call
in `intersect`, `interp_horiz`, `interp_horiz_cm` and `rotate_uv`:
`x * 1.0 / 57.296`. -/
def kernel_deg2rad (x : ℚ) : ℚ := x * 1 / deg2rad_divisor

/-- `np.rad2deg` as applied to the kernel output in `geo_coords`:
`degrees = radians * (180 / π)` (a relation, since `π` is real). -/
def geo_coords_rad2deg (radians degrees : ℝ) : Prop :=
  degrees = radians * (180 / Real.pi)

/-- C9: the kernel-bound degree-to-radian conversions divide by the
literal `57.296`, which is not the exact `180 / π`; `geo_coords` converts
radians to degrees by the exact `180 / π`; the Celsius-to-Kelvin
conversion adds exactly `273.5` (not `273.15`); the
orography-to-geopotential conversion multiplies by exactly
`9.806805923`. -/
theorem c9_literal_constants :
    (∀ x : ℚ, kernel_deg2rad x = x / (57296 / 1000)) ∧
      ((57296 / 1000 : ℝ) ≠ 180 / Real.pi) ∧
      (∀ r : ℝ, geo_coords_rad2deg r (r * (180 / Real.pi))) ∧
      (∀ vals : List ℚ, ∀ s o,
        (convert_units ⟨s, some ⟨vals, some (UnitsAttr.str "degC")⟩, o⟩).1.tos =
          some ⟨vals.map (fun x => x + 2735 / 10), some (UnitsAttr.str "K")⟩) ∧
      const.absolute_zero = 2735 / 10 ∧
      const.absolute_zero ≠ 27315 / 100 ∧
      (∀ vals : List ℚ, ∀ s t,
        (convert_units ⟨s, t, some ⟨vals, some (UnitsAttr.str "m")⟩⟩).1.orog =
          some ⟨vals.map (fun x => x * (9806805923 / 1000000000)),
            some (UnitsAttr.str "m2 s-2")⟩) ∧
      const.grav_const = 9806805923 / 1000000000 := by
  refine ⟨?_, ?_, ?_, ?_, ?_, ?_, ?_, ?_⟩
  · intro x
    rw [kernel_deg2rad, deg2rad_divisor]
    ring
  · intro hcontra
    have hpi : Real.pi = 180 * (1000 / 57296) := by
      have h57 : (57296 / 1000 : ℝ) ≠ 0 := by norm_num
      field_simp at hcontra
      field_simp
      linarith
    have : Irrational Real.pi := irrational_pi
    rw [hpi] at this
    have hrat : (180 * (1000 / 57296) : ℝ) = ((180 * (1000 / 57296) : ℚ) : ℝ) := by
      push_cast
      ring
    rw [hrat] at this
    exact this.ne_rat _ rfl
  · intro r
    rfl
  · intro vals s o
    simp [convert_units, convertField, const.absolute_zero]
  · rfl
  · rw [const.absolute_zero]
    norm_num
  · intro vals s t
    simp [convert_units, convertField, const.grav_const]
  · rfl

end PyRemo
